import Mathlib

/-!
Verification of the passport-vault server core (src/server/routes.ts,
src/server/storage.ts) against its specification.  The TypeScript code is
shallowly embedded: the database tables become Lean lists, fallible
external effects (file unlink, QR rendering, a storage write throwing)
become explicit boolean oracles, and each HTTP handler becomes a pure
function from a server state to a result holding the HTTP status and the
new state.  Timestamps are naturals counting milliseconds since the epoch.
-/

namespace PassportVault

/-- Milliseconds in one day, used by day truncation (`setHours(0,0,0,0)`
on a date is modelled as flooring the timestamp to a day boundary). -/
def msPerDay : Nat := 86400000

/-- Day truncation of a timestamp: `d.setHours(0, 0, 0, 0)`. -/
def truncDay (t : Nat) : Nat := t / msPerDay * msPerDay

/-- A row of the `users` table (`shared/schema.ts` via storage.ts). -/
structure User where
  id : String
  email : Option String
  firstName : Option String
  lastName : Option String
  profileImageUrl : Option String
  isMainAdmin : Bool
  isActive : Bool
  createdAt : Nat
  updatedAt : Nat
  deriving Repr, DecidableEq

/-- A row of the `groups` table. -/
structure Group where
  id : Nat
  name : String
  createdBy : String
  createdAt : Nat
  updatedAt : Nat
  deriving Repr, DecidableEq

/-- A row of the `people` table (a passport record). -/
structure Person where
  id : Nat
  publicId : String
  fullName : String
  birthDate : String
  passportNumber : String
  expirationDate : Nat
  notes : String
  groupId : Int
  status : Bool
  photoUrl : String
  qrCodeUrl : String
  createdBy : String
  createdAt : Nat
  updatedAt : Nat
  deriving Repr, DecidableEq

/-- The structured `details` payload of an activity-log entry: the code
passes ad-hoc objects (`{ passportNumber }`, `{ fullName, expirationDate }`,
`{ adminEmail }`), modelled as one record of optional fields. -/
structure LogDetails where
  fullName : Option String
  expirationDate : Option Nat
  passportNumber : Option String
  adminEmail : Option String
  deriving Repr, DecidableEq

/-- A row of the `activity_logs` table. -/
structure ActivityLog where
  action : String
  entityType : String
  entityId : String
  performedBy : String
  details : Option LogDetails
  timestamp : Nat
  deriving Repr, DecidableEq

/-- The whole database state. -/
structure State where
  users : List User
  groups : List Group
  people : List Person
  logs : List ActivityLog
  deriving Repr, DecidableEq

/-- `storage.createActivityLog` followed from `logActivity`: appends one
row.  (`logActivity` swallows any error of the insert, so it never throws
into its caller.) -/
def logActivity (logs : List ActivityLog) (action entityType entityId userId : String)
    (details : Option LogDetails) (now : Nat) : List ActivityLog :=
  logs ++ [{ action := action, entityType := entityType, entityId := entityId,
             performedBy := userId, details := details, timestamp := now }]

/-! ### Person update (PUT /api/people/:id) -/

/-- The partial update object accepted by `storage.updatePerson`
(`Partial<InsertPerson & { qrCodeUrl? }>` plus whatever extra keys the
handler's spread of `req.body` leaves in).  A `none` field is an absent
key. -/
structure PersonUpdate where
  fullName : Option String
  birthDate : Option String
  passportNumber : Option String
  expirationDate : Option Nat
  notes : Option String
  groupId : Option Int
  status : Option Bool
  photoUrl : Option String
  publicId : Option String
  qrCodeUrl : Option String
  createdBy : Option String
  createdAt : Option Nat
  deriving Repr, DecidableEq

/-- An update object with every key absent. -/
def PersonUpdate.empty : PersonUpdate :=
  { fullName := none, birthDate := none, passportNumber := none,
    expirationDate := none, notes := none, groupId := none, status := none,
    photoUrl := none, publicId := none, qrCodeUrl := none, createdBy := none,
    createdAt := none }

/-- `db.update(people).set({ ...personData, updatedAt: new Date() })` on a
single row: each present key overwrites the column, `updatedAt` is always
set to the current time. -/
def applyUpdate (p : Person) (d : PersonUpdate) (now : Nat) : Person :=
  { id := p.id
    publicId := d.publicId.getD p.publicId
    fullName := d.fullName.getD p.fullName
    birthDate := d.birthDate.getD p.birthDate
    passportNumber := d.passportNumber.getD p.passportNumber
    expirationDate := d.expirationDate.getD p.expirationDate
    notes := d.notes.getD p.notes
    groupId := d.groupId.getD p.groupId
    status := d.status.getD p.status
    photoUrl := d.photoUrl.getD p.photoUrl
    qrCodeUrl := d.qrCodeUrl.getD p.qrCodeUrl
    createdBy := d.createdBy.getD p.createdBy
    createdAt := d.createdAt.getD p.createdAt
    updatedAt := now }

/-- `DatabaseStorage.updatePerson`: `UPDATE people SET ... WHERE id = pid
RETURNING *`, destructured as `[person]` — the updated rows and the first
of them (`undefined`, i.e. `none`, when no row matched). -/
def updatePersonStore (people : List Person) (pid : Nat) (d : PersonUpdate)
    (now : Nat) : List Person × Option Person :=
  (people.map fun p => if p.id == pid then applyUpdate p d now else p,
   (people.find? fun p => p.id == pid).map fun p => applyUpdate p d now)

/-- The multipart form body of a PUT /api/people/:id request, after
multer: each text field is an optional string, plus the optional uploaded
file.  Blind keys the handler later deletes (`id`, `photo`, `publicId`,
`qrCodeUrl`, `createdBy`, `createdAt`, `updatedAt`) can all be supplied. -/
structure PutBody where
  fullName : Option String
  birthDate : Option String
  passportNumber : Option String
  expirationDate : Option Nat
  notes : Option String
  groupId : Option Int
  status : Option String
  photoUrl : Option String
  publicId : Option String
  qrCodeUrl : Option String
  createdBy : Option String
  createdAt : Option Nat
  deriving Repr, DecidableEq

/-- The `updateData` object of the PUT handler: spread of the body, with
`groupId` coerced by `Number(...)` (the NaN of an absent field is modelled
as 0: no claim depends on it), `status` coerced by `=== "true"`, the
file's URL when a photo was uploaded, and the protected keys deleted
(`delete updateData.publicId` etc.). -/
def buildUpdateData (body : PutBody) (file : Option String) : PersonUpdate :=
  { fullName := body.fullName
    birthDate := body.birthDate
    passportNumber := body.passportNumber
    expirationDate := body.expirationDate
    notes := body.notes
    groupId := some (body.groupId.getD 0)
    status := some (body.status == some "true")
    photoUrl := match file with
      | some f => some f
      | none => body.photoUrl
    publicId := none
    qrCodeUrl := none
    createdBy := none
    createdAt := none }

/-- Result of an API handler: HTTP status, resulting database state, and
the JSON-returned person when there is one. -/
structure ApiResult where
  status : Nat
  state : State
  person : Option Person
  deriving Repr, DecidableEq

/-- The PUT /api/people/:id handler.  When the id matches no row,
`updatePerson` returns `undefined` and the handler crashes reading
`person.fullName`; the `catch` answers HTTP 400 (not 404) with the
TypeError's message, and no activity log is written. -/
def putPersonHandler (st : State) (pid : Nat) (body : PutBody)
    (file : Option String) (userId : String) (now : Nat) : ApiResult :=
  let d := buildUpdateData body file
  let r := updatePersonStore st.people pid d now
  match r.2 with
  | some person =>
      { status := 200
        state := { st with
          people := r.1
          logs := logActivity st.logs
            ("Обновлен паспорт \"" ++ person.fullName ++ "\"") "passport"
            (toString person.id) userId
            (some { fullName := none, expirationDate := none,
                    passportNumber := some person.passportNumber,
                    adminEmail := none }) now }
        person := some person }
  | none =>
      { status := 400, state := { st with people := r.1 }, person := none }

/-! ### Expiration scheduler (setupExpirationCron) -/

/-- The scheduler's expiration test on one record: `person.status` and the
day-truncated `expirationDate` strictly before the day-truncated today. -/
def expCond (today : Nat) (p : Person) : Bool :=
  p.status && decide (truncDay p.expirationDate < truncDay today)

/-- The row update done by `DatabaseStorage.markPersonExpired`:
`set({ status: false, updatedAt: new Date() })`. -/
def markExpired (now : Nat) (p : Person) : Person :=
  { p with status := false, updatedAt := now }

/-- `markPersonExpired(id)`: flips every row matching the id. -/
def markPersonExpiredStore (people : List Person) (pid : Nat) (now : Nat) :
    List Person :=
  people.map fun p => if p.id == pid then markExpired now p else p

/-- The activity-log row the scheduler writes for one expired person:
performer is the sentinel `"system"`, details carry the full name and the
expiration date. -/
def expLog (now : Nat) (p : Person) : ActivityLog :=
  { action := "Паспорт автоматически деактивирован из-за истечения срока действия"
    entityType := "passport"
    entityId := toString p.id
    performedBy := "system"
    details := some { fullName := some p.fullName,
                      expirationDate := some p.expirationDate,
                      passportNumber := none, adminEmail := none }
    timestamp := now }

/-- One pass of the cron callback's `for` loop over the snapshot of
people loaded at the start, with a failure oracle for
`storage.markPersonExpired` (a database error there propagates to the
single `try/catch` wrapping the whole loop, so the run stops with the
state reached so far; `logActivity` swallows its own errors and never
throws). -/
def cronIterF (fails : Nat → Bool) (today now : Nat) :
    List Person → State → State
  | [], st => st
  | p :: rest, st =>
      if expCond today p then
        if fails p.id then st
        else cronIterF fails today now rest
          { st with
            people := markPersonExpiredStore st.people p.id now
            logs := st.logs ++ [expLog now p] }
      else cronIterF fails today now rest st

/-- One scheduler run with the failure oracle: load all people, then
iterate.  An abort inside the loop is caught by the callback's outer
`catch`, which only logs, so the state reached is kept. -/
def runExpirationF (fails : Nat → Bool) (today now : Nat) (st : State) : State :=
  cronIterF fails today now st.people st

/-- One scheduler run on a day when no storage write fails (the pure
behaviour of `setupExpirationCron`'s callback). -/
def runExpiration (today now : Nat) (st : State) : State :=
  runExpirationF (fun _ => false) today now st

/-! ### Person creation (POST /api/people) -/

/-- Validated creation input (`insertPersonSchema.parse` succeeded): all
required fields present and typed. -/
structure CreateBody where
  fullName : String
  birthDate : String
  passportNumber : String
  expirationDate : Nat
  notes : String
  groupId : Int
  status : Bool
  deriving Repr, DecidableEq

/-- `generateQRCode`: renders `protocol://hostname/p/publicId` to
`qr-<publicId>.png` and returns its URL; its internal `try/catch` returns
the empty string when rendering fails, never throwing.  `qrFails` is the
rendering-failure oracle. -/
def generateQRCode (qrFails : Bool) (publicId protocol hostname : String) : String :=
  if qrFails then "" else "/uploads/qrcodes/qr-" ++ publicId ++ ".png"

/-- Modelled from the spec: the `people` table's column defaults in
`shared/schema.ts` (not under src/) — a row inserted without `qrCodeUrl`
gets an empty QR URL ("the record is still created usably with an empty
QR URL").  `DatabaseStorage.createPerson` inserts one row; the database
assigns the fresh serial `newId` and the insertion timestamps. -/
def createPersonStore (people : List Person) (body : CreateBody)
    (photoUrl publicId createdBy : String) (newId now : Nat) :
    List Person × Person :=
  let p : Person :=
    { id := newId, publicId := publicId, fullName := body.fullName,
      birthDate := body.birthDate, passportNumber := body.passportNumber,
      expirationDate := body.expirationDate, notes := body.notes,
      groupId := body.groupId, status := body.status, photoUrl := photoUrl,
      qrCodeUrl := "", createdBy := createdBy, createdAt := now,
      updatedAt := now }
  (people ++ [p], p)

/-- `photoUrl` as computed from the optional multer upload. -/
def uploadedPhotoUrl (file : Option String) : String :=
  match file with
  | some f => "/uploads/photos/" ++ f
  | none => ""

/-- The POST /api/people handler: create the row, render the QR code,
persist the QR URL when rendering succeeded, log, and return the re-read
record. -/
def postPersonHandler (st : State) (body : CreateBody) (file : Option String)
    (qrFails : Bool) (publicId : String) (newId now : Nat)
    (userId protocol hostname : String) : ApiResult :=
  let photoUrl := uploadedPhotoUrl file
  let c := createPersonStore st.people body photoUrl publicId userId newId now
  let qrCodeUrl := generateQRCode qrFails publicId protocol hostname
  let people₂ :=
    if qrCodeUrl ≠ "" then
      (updatePersonStore c.1 c.2.id
        { PersonUpdate.empty with qrCodeUrl := some qrCodeUrl } now).1
    else c.1
  let logs' := logActivity st.logs
    ("Создан паспорт для \"" ++ c.2.fullName ++ "\"") "passport"
    (toString c.2.id) userId
    (some { fullName := none, expirationDate := none,
            passportNumber := some c.2.passportNumber, adminEmail := none }) now
  { status := 200
    state := { st with people := people₂, logs := logs' }
    person := people₂.find? fun p => p.id == c.2.id }

/-! ### Person deletion (DELETE /api/people/:id) -/

/-- `DatabaseStorage.deletePerson`: `DELETE FROM people WHERE id = pid`. -/
def deletePersonStore (people : List Person) (pid : Nat) : List Person :=
  people.filter fun p => !(p.id == pid)

/-- Result of the DELETE handler: HTTP status, database state, and the
set of files still on disk (paths under the process working directory). -/
structure DeleteResult where
  status : Nat
  state : State
  fsys : List String
  deriving Repr, DecidableEq

/-- The DELETE /api/people/:id handler.  For each non-empty asset URL it
`path.join`s it onto the working directory, checks existence, and
`unlinkSync`s it; `unlinkFails` is the oracle for `unlinkSync` throwing
(on a throw the whole handler's `catch` answers 500: the record is not
deleted and nothing is logged).  Otherwise the row is deleted and a log
entry appended. -/
def deletePersonHandler (st : State) (fsys : List String)
    (unlinkFails : String → Bool) (cwd : String) (pid : Nat)
    (userId : String) (now : Nat) : DeleteResult :=
  match st.people.find? fun p => p.id == pid with
  | none => { status := 404, state := st, fsys := fsys }
  | some person =>
      let photoPath := cwd ++ person.photoUrl
      let qrPath := cwd ++ person.qrCodeUrl
      if person.photoUrl ≠ "" && fsys.contains photoPath && unlinkFails photoPath then
        { status := 500, state := st, fsys := fsys }
      else
        let fsys₁ := if person.photoUrl ≠ "" && fsys.contains photoPath then
            fsys.erase photoPath else fsys
        if person.qrCodeUrl ≠ "" && fsys₁.contains qrPath && unlinkFails qrPath then
          { status := 500, state := st, fsys := fsys₁ }
        else
          let fsys₂ := if person.qrCodeUrl ≠ "" && fsys₁.contains qrPath then
              fsys₁.erase qrPath else fsys₁
          { status := 200
            state := { st with
              people := deletePersonStore st.people pid
              logs := logActivity st.logs
                ("Удален паспорт \"" ++ person.fullName ++ "\"") "passport"
                (toString pid) userId
                (some { fullName := none, expirationDate := none,
                        passportNumber := some person.passportNumber,
                        adminEmail := none }) now }
            fsys := fsys₂ }

/-! ### Group deletion (DELETE /api/groups/:id) -/

/-- `DatabaseStorage.deleteGroup`: `DELETE FROM groups WHERE id = gid`;
it touches no other table. -/
def deleteGroupStore (groups : List Group) (gid : Nat) : List Group :=
  groups.filter fun g => !(g.id == gid)

/-- Result of a group-mutating handler. -/
structure GroupResult where
  status : Nat
  state : State
  deriving Repr, DecidableEq

/-- The DELETE /api/groups/:id handler: 404 when the group is unknown,
otherwise delete the group row and log. -/
def deleteGroupHandler (st : State) (gid : Nat) (userId : String)
    (now : Nat) : GroupResult :=
  match st.groups.find? fun g => g.id == gid with
  | none => { status := 404, state := st }
  | some group =>
      { status := 200
        state := { st with
          groups := deleteGroupStore st.groups gid
          logs := logActivity st.logs
            ("Удалена группа \"" ++ group.name ++ "\"") "group"
            (toString gid) userId none now } }

/-! ### User upsert (DatabaseStorage.upsertUser) -/

/-- The argument of `upsertUser`: `UpsertUser` plus the optional
`isMainAdmin` / `isActive` overrides. -/
structure UpsertInput where
  id : String
  email : Option String
  firstName : Option String
  lastName : Option String
  profileImageUrl : Option String
  isMainAdmin : Option Bool
  isActive : Option Bool
  deriving Repr, DecidableEq

/-- The `onConflictDoUpdate` `set` clause: only the four profile columns
and `updatedAt` are written on the conflict path. -/
def conflictUpdate (u : User) (input : UpsertInput) (now : Nat) : User :=
  { u with
    email := input.email
    firstName := input.firstName
    lastName := input.lastName
    profileImageUrl := input.profileImageUrl
    updatedAt := now }

/-- `DatabaseStorage.upsertUser`: insert with defaults
`isMainAdmin ?? false`, `isActive ?? true`; on an id conflict apply only
the conflict `set` clause.  Returns the new table and the returned row. -/
def upsertUser (users : List User) (input : UpsertInput) (now : Nat) :
    List User × User :=
  match users.find? fun u => u.id == input.id with
  | some u =>
      (users.map fun v => if v.id == input.id then conflictUpdate v input now else v,
       conflictUpdate u input now)
  | none =>
      let u : User :=
        { id := input.id, email := input.email, firstName := input.firstName,
          lastName := input.lastName, profileImageUrl := input.profileImageUrl,
          isMainAdmin := input.isMainAdmin.getD false,
          isActive := input.isActive.getD true,
          createdAt := now, updatedAt := now }
      (users ++ [u], u)

/-! ### Activity-log listing (DatabaseStorage.getAllActivityLogs) -/

/-- One row of the listing: the log entry joined with the performing
user, `performedByUser` absent when the left join matched no user. -/
structure EnrichedLog where
  log : ActivityLog
  performedByUser : Option User
  deriving Repr, DecidableEq

/-- `ORDER BY activity_logs.timestamp DESC`. -/
def sortLogsDesc (logs : List ActivityLog) : List ActivityLog :=
  logs.mergeSort fun a b => b.timestamp ≤ a.timestamp

/-- `getAllActivityLogs`: left-join each entry with the user whose id is
its performer, newest first. -/
def getAllActivityLogs (logs : List ActivityLog) (users : List User) :
    List EnrichedLog :=
  (sortLogsDesc logs).map fun l =>
    { log := l, performedByUser := users.find? fun u => u.id == l.performedBy }

/-! ### Sample data for concrete evaluations -/

/-- A sample active passport record, expiring on day 10. -/
def cPerson1 : Person :=
  { id := 1, publicId := "a1b2", fullName := "Иван Иванов",
    birthDate := "1990-01-01", passportNumber := "AB123",
    expirationDate := 10 * msPerDay, notes := "", groupId := 1,
    status := true, photoUrl := "", qrCodeUrl := "",
    createdBy := "admin_user", createdAt := 0, updatedAt := 0 }

/-- A second sample active passport record, also expiring on day 10. -/
def cPerson2 : Person :=
  { id := 2, publicId := "c3d4", fullName := "Пётр Петров",
    birthDate := "1991-02-02", passportNumber := "CD456",
    expirationDate := 10 * msPerDay, notes := "", groupId := 1,
    status := true, photoUrl := "/uploads/photos/p2.png",
    qrCodeUrl := "/uploads/qrcodes/qr-c3d4.png",
    createdBy := "admin_user", createdAt := 0, updatedAt := 0 }

/-- A PUT body with every field absent. -/
def cPutBody : PutBody :=
  { fullName := none, birthDate := none, passportNumber := none,
    expirationDate := none, notes := none, groupId := none, status := none,
    photoUrl := none, publicId := none, qrCodeUrl := none, createdBy := none,
    createdAt := none }

/-! ### Theorems -/

lemma putPersonHandler_people (st : State) (pid : Nat) (body : PutBody)
    (file : Option String) (userId : String) (now : Nat) :
    (putPersonHandler st pid body file userId now).state.people
      = (updatePersonStore st.people pid (buildUpdateData body file) now).1 := by
  simp only [putPersonHandler]
  cases hx : (updatePersonStore st.people pid (buildUpdateData body file) now).2 <;>
    simp [hx]

/-- C1: whatever keys the caller supplies in the PUT /api/people/:id
payload (and whether or not a photo is uploaded), the handler strips the
protected keys, so the persisted update never changes any record's
`publicId`, `qrCodeUrl`, `createdBy`, or `createdAt`. -/
theorem update_preserves_protected_fields (st : State) (pid : Nat)
    (body : PutBody) (file : Option String) (userId : String) (now : Nat) :
    List.Forall₂
      (fun p q => q.publicId = p.publicId ∧ q.qrCodeUrl = p.qrCodeUrl ∧
        q.createdBy = p.createdBy ∧ q.createdAt = p.createdAt)
      st.people (putPersonHandler st pid body file userId now).state.people := by
  rw [putPersonHandler_people]
  rw [updatePersonStore]
  rw [List.forall₂_map_right_iff]
  rw [List.forall₂_same]
  intro p _
  by_cases h : p.id == pid
  · simp [h, applyUpdate, buildUpdateData]
  · simp [h]

/-- C5 (code divergence): a PUT on an id matching no record does not
answer 404; `updatePerson` returns `undefined`, the handler crashes
reading `person.fullName`, and the catch-all answers HTTP 400.  The state
(records and activity log) is unchanged — concretely evaluated at a store
holding only person 1 while updating id 2. -/
theorem put_unknown_id_answers_400 :
    (putPersonHandler ⟨[], [], [cPerson1], []⟩ 2 cPutBody none "admin_user" 5).status = 400
    ∧ (putPersonHandler ⟨[], [], [cPerson1], []⟩ 2 cPutBody none "admin_user" 5).state
        = ⟨[], [], [cPerson1], []⟩
    ∧ (putPersonHandler ⟨[], [], [cPerson1], []⟩ 2 cPutBody none "admin_user" 5).status ≠ 404 := by
  decide

/-! ### Scheduler characterization -/

/-- The effect of one scheduler pass over the snapshot `l` on an arbitrary
row `q`: marked expired exactly when some snapshot element with `q`'s id
satisfies the expiration condition. -/
def markIfAny (today now : Nat) (l : List Person) (q : Person) : Person :=
  if l.any fun p => expCond today p && p.id == q.id then markExpired now q else q

lemma markIfAny_nil (today now : Nat) (q : Person) :
    markIfAny today now [] q = q := by
  simp [markIfAny]

lemma markIfAny_cons_pos (today now : Nat) (r : Person) (l : List Person)
    (hr : expCond today r = true) (q : Person) :
    markIfAny today now l (if q.id == r.id then markExpired now q else q)
      = markIfAny today now (r :: l) q := by
  by_cases hq : q.id = r.id
  · have hidem : markExpired now (markExpired now q) = markExpired now q := rfl
    simp [markIfAny, markExpired, hr, hq, List.any_cons, hidem]
  · have hq' : r.id ≠ q.id := fun h => hq h.symm
    simp [markIfAny, hr, hq, hq', List.any_cons]

lemma markIfAny_cons_neg (today now : Nat) (r : Person) (l : List Person)
    (hr : expCond today r = false) (q : Person) :
    markIfAny today now l q = markIfAny today now (r :: l) q := by
  simp [markIfAny, List.any_cons, hr]

lemma map_markIfAny_nil (today now : Nat) (l : List Person) :
    l.map (markIfAny today now []) = l := by
  rw [List.map_congr_left fun q _ => markIfAny_nil today now q]
  exact List.map_id' l

lemma cronIterF_run (fails : Nat → Bool) (today now : Nat) (l : List Person) :
    ∀ st : State, (∀ r ∈ l, expCond today r = true → fails r.id = false) →
      (cronIterF fails today now l st).people
          = st.people.map (markIfAny today now l)
      ∧ (cronIterF fails today now l st).logs
          = st.logs ++ (l.filter (expCond today)).map (expLog now) := by
  induction l with
  | nil =>
      intro st _
      constructor
      · rw [map_markIfAny_nil]
        simp [cronIterF]
      · simp [cronIterF]
  | cons p rest ih =>
      intro st h
      by_cases hc : expCond today p = true
      · have hf : fails p.id = false := h p (List.mem_cons_self p rest) hc
        have hstep : cronIterF fails today now (p :: rest) st
            = cronIterF fails today now rest
              { st with
                people := markPersonExpiredStore st.people p.id now
                logs := st.logs ++ [expLog now p] } := by
          simp [cronIterF, hc, hf]
        rw [hstep]
        obtain ⟨hp, hl⟩ := ih _ (fun r hr hcr => h r (List.mem_cons_of_mem p hr) hcr)
        constructor
        · rw [hp]
          show (st.people.map fun q => if q.id == p.id then markExpired now q else q).map
              (markIfAny today now rest) = _
          rw [List.map_map]
          exact List.map_congr_left fun q _ => markIfAny_cons_pos today now p rest hc q
        · rw [hl]
          simp [hc, List.filter_cons]
      · rw [Bool.not_eq_true] at hc
        have hstep : cronIterF fails today now (p :: rest) st
            = cronIterF fails today now rest st := by
          simp [cronIterF, hc]
        rw [hstep]
        obtain ⟨hp, hl⟩ := ih st (fun r hr hcr => h r (List.mem_cons_of_mem p hr) hcr)
        constructor
        · rw [hp]
          exact List.map_congr_left fun q _ => markIfAny_cons_neg today now p rest hc q
        · rw [hl]
          simp [hc, List.filter_cons]

lemma cronIterF_abort (fails : Nat → Bool) (today now : Nat) (l₁ : List Person) :
    ∀ (p : Person) (l₂ : List Person) (st : State),
      (∀ r ∈ l₁, expCond today r = true → fails r.id = false) →
      expCond today p = true → fails p.id = true →
      (cronIterF fails today now (l₁ ++ p :: l₂) st).people
          = st.people.map (markIfAny today now l₁)
      ∧ (cronIterF fails today now (l₁ ++ p :: l₂) st).logs
          = st.logs ++ (l₁.filter (expCond today)).map (expLog now) := by
  induction l₁ with
  | nil =>
      intro p l₂ st _ hc hf
      have hstep : cronIterF fails today now ([] ++ p :: l₂) st = st := by
        simp [cronIterF, hc, hf]
      rw [hstep]
      constructor
      · rw [map_markIfAny_nil]
      · simp
  | cons r rest ih =>
      intro p l₂ st h hc hf
      by_cases hr : expCond today r = true
      · have hfr : fails r.id = false := h r (List.mem_cons_self r rest) hr
        have hstep : cronIterF fails today now ((r :: rest) ++ p :: l₂) st
            = cronIterF fails today now (rest ++ p :: l₂)
              { st with
                people := markPersonExpiredStore st.people r.id now
                logs := st.logs ++ [expLog now r] } := by
          simp [cronIterF, hr, hfr]
        rw [hstep]
        obtain ⟨hp, hl⟩ :=
          ih p l₂ _ (fun x hx hcx => h x (List.mem_cons_of_mem r hx) hcx) hc hf
        constructor
        · rw [hp]
          show (st.people.map fun q => if q.id == r.id then markExpired now q else q).map
              (markIfAny today now rest) = _
          rw [List.map_map]
          exact List.map_congr_left fun q _ => markIfAny_cons_pos today now r rest hr q
        · rw [hl]
          simp [hr, List.filter_cons]
      · rw [Bool.not_eq_true] at hr
        have hstep : cronIterF fails today now ((r :: rest) ++ p :: l₂) st
            = cronIterF fails today now (rest ++ p :: l₂) st := by
          simp [cronIterF, hr]
        rw [hstep]
        obtain ⟨hp, hl⟩ :=
          ih p l₂ st (fun x hx hcx => h x (List.mem_cons_of_mem r hx) hcx) hc hf
        constructor
        · rw [hp]
          exact List.map_congr_left fun q _ => markIfAny_cons_neg today now r rest hr q
        · rw [hl]
          simp [hr, List.filter_cons]

/-- A sample database state with two active passports expiring on day 10. -/
def cState : State := ⟨[], [], [cPerson1, cPerson2], []⟩

/-- C2: one scheduler run flips `status` to false exactly on the records
that are active with a day-truncated expiration date strictly before the
day-truncated today, and for each such record appends an activity-log
entry performed by the sentinel `"system"` whose details carry the
person's full name and expiration date. -/
theorem expiration_run_marks_exactly_expired (st : State) (today now : Nat)
    (h : (st.people.map Person.id).Nodup) :
    (runExpiration today now st).people
        = st.people.map (fun p => if expCond today p then markExpired now p else p)
    ∧ (runExpiration today now st).logs
        = st.logs ++ (st.people.filter (expCond today)).map (expLog now)
    ∧ ∀ p ∈ st.people, expCond today p = true →
        (expLog now p).performedBy = "system"
        ∧ (expLog now p).details
            = some { fullName := some p.fullName,
                     expirationDate := some p.expirationDate,
                     passportNumber := none, adminEmail := none } := by
  obtain ⟨hp, hl⟩ :=
    cronIterF_run (fun _ => false) today now st.people st (fun _ _ _ => rfl)
  have hrw : runExpiration today now st
      = cronIterF (fun _ => false) today now st.people st := rfl
  refine ⟨?_, by rw [hrw, hl], fun p _ _ => ⟨rfl, rfl⟩⟩
  rw [hrw, hp]
  apply List.map_congr_left
  intro q hq
  by_cases hcq : expCond today q = true
  · have hany : (st.people.any fun p => expCond today p && p.id == q.id) = true := by
      rw [List.any_eq_true]
      exact ⟨q, hq, by simp [hcq]⟩
    simp [markIfAny, hany, hcq]
  · rw [Bool.not_eq_true] at hcq
    have hany : (st.people.any fun p => expCond today p && p.id == q.id) = false := by
      by_contra hx
      rw [Bool.not_eq_false, List.any_eq_true] at hx
      obtain ⟨p, hpmem, hpred⟩ := hx
      rw [Bool.and_eq_true] at hpred
      have hpq : p = q :=
        List.inj_on_of_nodup_map h hpmem hq (beq_iff_eq.mp hpred.2)
      rw [hpq] at hpred
      simp [hcq] at hpred
    simp [markIfAny, hany, hcq]

/-- C2 witness: the run evaluated on a concrete two-record store. -/
theorem expiration_run_marks_exactly_expired_witness :
    ((cState.people.map Person.id).Nodup)
    ∧ ((runExpiration (20 * msPerDay) 7 cState).people
        = cState.people.map
            (fun p => if expCond (20 * msPerDay) p then markExpired 7 p else p)
    ∧ (runExpiration (20 * msPerDay) 7 cState).logs
        = cState.logs
          ++ (cState.people.filter (expCond (20 * msPerDay))).map (expLog 7)
    ∧ ∀ p ∈ cState.people, expCond (20 * msPerDay) p = true →
        (expLog 7 p).performedBy = "system"
        ∧ (expLog 7 p).details
            = some { fullName := some p.fullName,
                     expirationDate := some p.expirationDate,
                     passportNumber := none, adminEmail := none }) :=
  ⟨by decide,
   expiration_run_marks_exactly_expired cState (20 * msPerDay) 7 (by decide)⟩

/-- C3: running the scheduler twice on the same day produces no change at
all on the second run — the records transitioned by the first run are
inactive and skipped by the status guard, so no further transitions and
no further log entries occur. -/
theorem expiration_run_idempotent (st : State) (t₁ n₁ t₂ n₂ : Nat)
    (h : truncDay t₁ = truncDay t₂) :
    (runExpiration t₂ n₂ (runExpiration t₁ n₁ st)).people
        = (runExpiration t₁ n₁ st).people
    ∧ (runExpiration t₂ n₂ (runExpiration t₁ n₁ st)).logs
        = (runExpiration t₁ n₁ st).logs := by
  have hrw₁ : runExpiration t₁ n₁ st
      = cronIterF (fun _ => false) t₁ n₁ st.people st := rfl
  obtain ⟨hp₁, _⟩ :=
    cronIterF_run (fun _ => false) t₁ n₁ st.people st (fun _ _ _ => rfl)
  have hall : ∀ q ∈ (runExpiration t₁ n₁ st).people, expCond t₂ q = false := by
    intro q' hq'
    rw [hrw₁, hp₁] at hq'
    obtain ⟨q, hq, rfl⟩ := List.mem_map.mp hq'
    by_cases hany : (st.people.any fun p => expCond t₁ p && p.id == q.id) = true
    · have hmk : markIfAny t₁ n₁ st.people q = markExpired n₁ q := by
        simp [markIfAny, hany]
      rw [hmk]
      simp [expCond, markExpired]
    · rw [Bool.not_eq_true] at hany
      have hq0 : expCond t₁ q = false := by
        by_contra hx
        rw [Bool.not_eq_false] at hx
        have hT : (st.people.any fun p => expCond t₁ p && p.id == q.id) = true := by
          rw [List.any_eq_true]
          exact ⟨q, hq, by simp [hx]⟩
        simp [hT] at hany
      have hid : markIfAny t₁ n₁ st.people q = q := by
        simp [markIfAny, hany]
      rw [hid]
      unfold expCond at hq0 ⊢
      rw [← h]
      exact hq0
  obtain ⟨hp₂, hl₂⟩ :=
    cronIterF_run (fun _ => false) t₂ n₂ (runExpiration t₁ n₁ st).people
      (runExpiration t₁ n₁ st) (fun _ _ _ => rfl)
  have hrw₂ : runExpiration t₂ n₂ (runExpiration t₁ n₁ st)
      = cronIterF (fun _ => false) t₂ n₂ (runExpiration t₁ n₁ st).people
          (runExpiration t₁ n₁ st) := rfl
  constructor
  · rw [hrw₂, hp₂]
    have hpt : ∀ q ∈ (runExpiration t₁ n₁ st).people,
        markIfAny t₂ n₂ (runExpiration t₁ n₁ st).people q = q := by
      intro q hq
      have hany : ((runExpiration t₁ n₁ st).people.any
          fun p => expCond t₂ p && p.id == q.id) = false := by
        by_contra hx
        rw [Bool.not_eq_false, List.any_eq_true] at hx
        obtain ⟨p, hpmem, hpred⟩ := hx
        rw [Bool.and_eq_true] at hpred
        have := hall p hpmem
        simp [this] at hpred
      simp [markIfAny, hany]
    rw [List.map_congr_left hpt]
    exact List.map_id' _
  · rw [hrw₂, hl₂]
    have hfe : (runExpiration t₁ n₁ st).people.filter (expCond t₂) = [] := by
      rw [List.filter_eq_nil_iff]
      intro a ha
      simp [hall a ha]
    rw [hfe]
    simp

/-- C3 witness: two runs on the same day over a concrete store. -/
theorem expiration_run_idempotent_witness :
    truncDay (20 * msPerDay) = truncDay (20 * msPerDay + 5000)
    ∧ ((runExpiration (20 * msPerDay + 5000) 8
          (runExpiration (20 * msPerDay) 7 cState)).people
        = (runExpiration (20 * msPerDay) 7 cState).people
    ∧ (runExpiration (20 * msPerDay + 5000) 8
          (runExpiration (20 * msPerDay) 7 cState)).logs
        = (runExpiration (20 * msPerDay) 7 cState).logs) :=
  ⟨by decide,
   expiration_run_idempotent cState (20 * msPerDay) 7 (20 * msPerDay + 5000) 8
     (by decide)⟩

/-- C4 counterexample: with two expired active records, a storage failure
while marking record 1 aborts the whole loop — record 2 also satisfies the
expiration condition, yet after the run it is untouched (still active) and
no log entry at all was written. -/
theorem expiration_failure_aborts_cex :
    expCond (20 * msPerDay) cPerson2 = true
    ∧ (runExpirationF (fun i => i == 1) (20 * msPerDay) 5 cState).people
        = [cPerson1, cPerson2]
    ∧ cPerson2.status = true
    ∧ (runExpirationF (fun i => i == 1) (20 * msPerDay) 5 cState).logs = [] := by
  decide

/-- C4 amended: a `markPersonExpired` failure on one expired record aborts
the rest of the run — only the expired records strictly before the failing
one are transitioned and logged; everything from the failing record on is
left untouched.  (Activity-log write failures alone never abort, since
`logActivity` swallows them.) -/
theorem expiration_failure_aborts_rest (fails : Nat → Bool) (today now : Nat)
    (st : State) (l₁ l₂ : List Person) (p : Person)
    (hsplit : st.people = l₁ ++ p :: l₂)
    (hcond : expCond today p = true) (hfail : fails p.id = true)
    (hok : ∀ r ∈ l₁, expCond today r = true → fails r.id = false) :
    (runExpirationF fails today now st).people
        = st.people.map (markIfAny today now l₁)
    ∧ (runExpirationF fails today now st).logs
        = st.logs ++ (l₁.filter (expCond today)).map (expLog now) := by
  have hrw : runExpirationF fails today now st
      = cronIterF fails today now st.people st := rfl
  have hres := cronIterF_abort fails today now l₁ p l₂ st hok hcond hfail
  rw [hsplit] at hres
  rw [hrw, hsplit]
  exact hres

/-- C4 amended witness: the failing run evaluated concretely (failure on
the very first record, empty processed prefix). -/
theorem expiration_failure_aborts_rest_witness :
    (cState.people = [] ++ cPerson1 :: [cPerson2]
     ∧ expCond (20 * msPerDay) cPerson1 = true
     ∧ (fun i => i == 1) cPerson1.id = true
     ∧ ∀ r ∈ ([] : List Person), expCond (20 * msPerDay) r = true →
         (fun i => i == 1) r.id = false)
    ∧ ((runExpirationF (fun i => i == 1) (20 * msPerDay) 5 cState).people
        = cState.people.map (markIfAny (20 * msPerDay) 5 [])
    ∧ (runExpirationF (fun i => i == 1) (20 * msPerDay) 5 cState).logs
        = cState.logs
          ++ (([] : List Person).filter (expCond (20 * msPerDay))).map (expLog 5)) :=
  ⟨⟨by decide, by decide, by decide, by simp⟩,
   expiration_failure_aborts_rest (fun i => i == 1) (20 * msPerDay) 5 cState
     [] [cPerson2] cPerson1 (by decide) (by decide) (by decide) (by simp)⟩

/-- A sample group. -/
def cGroup1 : Group :=
  { id := 1, name := "Отдел А", createdBy := "admin_user",
    createdAt := 0, updatedAt := 0 }

/-- A sample admin user. -/
def cUser1 : User :=
  { id := "admin_user", email := some "admin@example.com",
    firstName := some "Администратор", lastName := some "Системы",
    profileImageUrl := none, isMainAdmin := true, isActive := true,
    createdAt := 0, updatedAt := 0 }

/-- C10: deleting an existing group deletes only the group row — the
people table (and with it every member's now-dangling `groupId`) and the
users table are untouched, and one log entry is appended. -/
theorem group_delete_orphans_members (st : State) (gid : Nat)
    (userId : String) (now : Nat) (g : Group)
    (hfound : (st.groups.find? fun x => x.id == gid) = some g) :
    (deleteGroupHandler st gid userId now).status = 200
    ∧ (deleteGroupHandler st gid userId now).state.people = st.people
    ∧ (deleteGroupHandler st gid userId now).state.users = st.users
    ∧ (deleteGroupHandler st gid userId now).state.groups
        = st.groups.filter (fun x => !(x.id == gid))
    ∧ (deleteGroupHandler st gid userId now).state.logs
        = logActivity st.logs ("Удалена группа \"" ++ g.name ++ "\"") "group"
            (toString gid) userId none now := by
  refine ⟨?_, ?_, ?_, ?_, ?_⟩ <;> simp only [deleteGroupHandler, hfound] <;> rfl

/-- C10 witness: deleting group 1 from a concrete state with a member. -/
theorem group_delete_orphans_members_witness :
    ((State.mk [cUser1] [cGroup1] [cPerson1] []).groups.find?
        fun x => x.id == 1) = some cGroup1
    ∧ ((deleteGroupHandler ⟨[cUser1], [cGroup1], [cPerson1], []⟩ 1 "admin_user" 3).status = 200
    ∧ (deleteGroupHandler ⟨[cUser1], [cGroup1], [cPerson1], []⟩ 1 "admin_user" 3).state.people
        = (State.mk [cUser1] [cGroup1] [cPerson1] []).people
    ∧ (deleteGroupHandler ⟨[cUser1], [cGroup1], [cPerson1], []⟩ 1 "admin_user" 3).state.users
        = (State.mk [cUser1] [cGroup1] [cPerson1] []).users
    ∧ (deleteGroupHandler ⟨[cUser1], [cGroup1], [cPerson1], []⟩ 1 "admin_user" 3).state.groups
        = (State.mk [cUser1] [cGroup1] [cPerson1] []).groups.filter (fun x => !(x.id == 1))
    ∧ (deleteGroupHandler ⟨[cUser1], [cGroup1], [cPerson1], []⟩ 1 "admin_user" 3).state.logs
        = logActivity (State.mk [cUser1] [cGroup1] [cPerson1] []).logs
            ("Удалена группа \"" ++ cGroup1.name ++ "\"") "group"
            (toString 1) "admin_user" none 3) :=
  ⟨by decide,
   group_delete_orphans_members ⟨[cUser1], [cGroup1], [cPerson1], []⟩ 1
     "admin_user" 3 cGroup1 (by decide)⟩

/-- C9: upserting an existing user (re-authentication) goes through the
conflict-update path, which writes only `email`, `firstName`, `lastName`,
`profileImageUrl` and `updatedAt`; `isMainAdmin` and `isActive` (and `id`
and `createdAt`) are untouched on the returned row and on every row of
the table, whatever the input carries. -/
theorem upsert_existing_preserves_flags (users : List User)
    (input : UpsertInput) (now : Nat) (u : User)
    (hu : (users.find? fun v => v.id == input.id) = some u) :
    (upsertUser users input now).2.isMainAdmin = u.isMainAdmin
    ∧ (upsertUser users input now).2.isActive = u.isActive
    ∧ (upsertUser users input now).2.id = u.id
    ∧ (upsertUser users input now).2.createdAt = u.createdAt
    ∧ (upsertUser users input now).2.email = input.email
    ∧ (upsertUser users input now).2.firstName = input.firstName
    ∧ (upsertUser users input now).2.lastName = input.lastName
    ∧ (upsertUser users input now).2.profileImageUrl = input.profileImageUrl
    ∧ (upsertUser users input now).2.updatedAt = now
    ∧ List.Forall₂
        (fun v w => w.isMainAdmin = v.isMainAdmin ∧ w.isActive = v.isActive
          ∧ w.id = v.id ∧ w.createdAt = v.createdAt)
        users (upsertUser users input now).1 := by
  simp only [upsertUser, hu]
  refine ⟨rfl, rfl, rfl, rfl, rfl, rfl, rfl, rfl, rfl, ?_⟩
  rw [List.forall₂_map_right_iff]
  rw [List.forall₂_same]
  intro v _
  by_cases h : v.id == input.id
  · simp [h, conflictUpdate]
  · simp [h]

/-- C9 witness: re-upserting the sample admin with inverted flags. -/
theorem upsert_existing_preserves_flags_witness :
    (([cUser1].find? fun v => v.id == "admin_user") = some cUser1)
    ∧ ((upsertUser [cUser1]
          ⟨"admin_user", some "new@example.com", some "Новый", some "Админ",
           none, some false, some false⟩ 11).2.isMainAdmin = cUser1.isMainAdmin
    ∧ (upsertUser [cUser1]
          ⟨"admin_user", some "new@example.com", some "Новый", some "Админ",
           none, some false, some false⟩ 11).2.isActive = cUser1.isActive
    ∧ (upsertUser [cUser1]
          ⟨"admin_user", some "new@example.com", some "Новый", some "Админ",
           none, some false, some false⟩ 11).2.id = cUser1.id
    ∧ (upsertUser [cUser1]
          ⟨"admin_user", some "new@example.com", some "Новый", some "Админ",
           none, some false, some false⟩ 11).2.createdAt = cUser1.createdAt
    ∧ (upsertUser [cUser1]
          ⟨"admin_user", some "new@example.com", some "Новый", some "Админ",
           none, some false, some false⟩ 11).2.email = some "new@example.com"
    ∧ (upsertUser [cUser1]
          ⟨"admin_user", some "new@example.com", some "Новый", some "Админ",
           none, some false, some false⟩ 11).2.firstName = some "Новый"
    ∧ (upsertUser [cUser1]
          ⟨"admin_user", some "new@example.com", some "Новый", some "Админ",
           none, some false, some false⟩ 11).2.lastName = some "Админ"
    ∧ (upsertUser [cUser1]
          ⟨"admin_user", some "new@example.com", some "Новый", some "Админ",
           none, some false, some false⟩ 11).2.profileImageUrl = none
    ∧ (upsertUser [cUser1]
          ⟨"admin_user", some "new@example.com", some "Новый", some "Админ",
           none, some false, some false⟩ 11).2.updatedAt = 11
    ∧ List.Forall₂
        (fun v w => w.isMainAdmin = v.isMainAdmin ∧ w.isActive = v.isActive
          ∧ w.id = v.id ∧ w.createdAt = v.createdAt)
        [cUser1]
        (upsertUser [cUser1]
          ⟨"admin_user", some "new@example.com", some "Новый", some "Админ",
           none, some false, some false⟩ 11).1) :=
  ⟨by decide,
   upsert_existing_preserves_flags [cUser1]
     ⟨"admin_user", some "new@example.com", some "Новый", some "Админ",
      none, some false, some false⟩ 11 cUser1 (by decide)⟩

/-- C6 counterexample: person 2's photo file exists and its `unlinkSync`
throws — the handler's single `catch` answers 500, the record is NOT
removed, and no activity-log entry is written, contradicting "a failure
while deleting an asset does not abort deletion of the record itself". -/
theorem delete_asset_failure_aborts_record_cex :
    (deletePersonHandler ⟨[], [], [cPerson2], []⟩ ["/app/uploads/photos/p2.png"]
        (fun _ => true) "/app" 2 "admin_user" 9).status = 500
    ∧ (deletePersonHandler ⟨[], [], [cPerson2], []⟩ ["/app/uploads/photos/p2.png"]
        (fun _ => true) "/app" 2 "admin_user" 9).state
        = ⟨[], [], [cPerson2], []⟩
    ∧ (deletePersonHandler ⟨[], [], [cPerson2], []⟩ ["/app/uploads/photos/p2.png"]
        (fun _ => true) "/app" 2 "admin_user" 9).fsys
        = ["/app/uploads/photos/p2.png"] := by
  decide

/-- C6 amended: asset removal is guarded by an existence check, so a
missing file does not abort; but when `unlinkSync` of an existing photo
asset throws, the whole deletion aborts with HTTP 500 — the record stays
and no log entry is written.  Only when no unlink fails is the record
removed and a log entry appended. -/
theorem delete_person_asset_behavior (st : State) (fsys : List String)
    (unlinkFails : String → Bool) (cwd : String) (pid : Nat)
    (userId : String) (now : Nat) (person : Person)
    (hfound : (st.people.find? fun p => p.id == pid) = some person) :
    ((∀ s, unlinkFails s = false) →
      (deletePersonHandler st fsys unlinkFails cwd pid userId now).status = 200
      ∧ (deletePersonHandler st fsys unlinkFails cwd pid userId now).state.people
          = deletePersonStore st.people pid
      ∧ (deletePersonHandler st fsys unlinkFails cwd pid userId now).state.logs
          = logActivity st.logs ("Удален паспорт \"" ++ person.fullName ++ "\"")
              "passport" (toString pid) userId
              (some { fullName := none, expirationDate := none,
                      passportNumber := some person.passportNumber,
                      adminEmail := none }) now)
    ∧ (person.photoUrl ≠ "" → fsys.contains (cwd ++ person.photoUrl) = true →
        unlinkFails (cwd ++ person.photoUrl) = true →
      (deletePersonHandler st fsys unlinkFails cwd pid userId now).status = 500
      ∧ (deletePersonHandler st fsys unlinkFails cwd pid userId now).state = st
      ∧ (deletePersonHandler st fsys unlinkFails cwd pid userId now).fsys = fsys) := by
  constructor
  · intro hall
    simp [deletePersonHandler, hfound, hall, deletePersonStore, logActivity]
  · intro h1 h2 h3
    have h2' : cwd ++ person.photoUrl ∈ fsys := by
      simpa using h2
    simp [deletePersonHandler, hfound, h1, h2', h3]

/-- C6 amended witness: the failing unlink evaluated on person 2. -/
theorem delete_person_asset_behavior_witness :
    (((State.mk [] [] [cPerson2] []).people.find? fun p => p.id == 2)
        = some cPerson2)
    ∧ (((∀ s, (fun _ => true : String → Bool) s = false) →
      (deletePersonHandler ⟨[], [], [cPerson2], []⟩ ["/app/uploads/photos/p2.png"]
          (fun _ => true) "/app" 2 "admin_user" 9).status = 200
      ∧ (deletePersonHandler ⟨[], [], [cPerson2], []⟩ ["/app/uploads/photos/p2.png"]
          (fun _ => true) "/app" 2 "admin_user" 9).state.people
          = deletePersonStore (State.mk [] [] [cPerson2] []).people 2
      ∧ (deletePersonHandler ⟨[], [], [cPerson2], []⟩ ["/app/uploads/photos/p2.png"]
          (fun _ => true) "/app" 2 "admin_user" 9).state.logs
          = logActivity (State.mk [] [] [cPerson2] []).logs
              ("Удален паспорт \"" ++ cPerson2.fullName ++ "\"")
              "passport" (toString 2) "admin_user"
              (some { fullName := none, expirationDate := none,
                      passportNumber := some cPerson2.passportNumber,
                      adminEmail := none }) 9)
    ∧ (cPerson2.photoUrl ≠ "" →
        List.contains ["/app/uploads/photos/p2.png"] ("/app" ++ cPerson2.photoUrl) = true →
        (fun _ => true : String → Bool) ("/app" ++ cPerson2.photoUrl) = true →
      (deletePersonHandler ⟨[], [], [cPerson2], []⟩ ["/app/uploads/photos/p2.png"]
          (fun _ => true) "/app" 2 "admin_user" 9).status = 500
      ∧ (deletePersonHandler ⟨[], [], [cPerson2], []⟩ ["/app/uploads/photos/p2.png"]
          (fun _ => true) "/app" 2 "admin_user" 9).state = ⟨[], [], [cPerson2], []⟩
      ∧ (deletePersonHandler ⟨[], [], [cPerson2], []⟩ ["/app/uploads/photos/p2.png"]
          (fun _ => true) "/app" 2 "admin_user" 9).fsys
          = ["/app/uploads/photos/p2.png"])) :=
  ⟨by decide,
   delete_person_asset_behavior ⟨[], [], [cPerson2], []⟩
     ["/app/uploads/photos/p2.png"] (fun _ => true) "/app" 2 "admin_user" 9
     cPerson2 (by decide)⟩

/-- C7: when QR rendering fails, passport creation still succeeds — the
handler answers 200, the record is persisted and returned with an empty
QR URL (the render failure was only written to the server console by
`generateQRCode`'s internal catch, never thrown). -/
theorem qr_failure_degraded_creation (st : State) (body : CreateBody)
    (file : Option String) (publicId : String) (newId now : Nat)
    (userId protocol hostname : String)
    (hfresh : ∀ p ∈ st.people, p.id ≠ newId) :
    (postPersonHandler st body file true publicId newId now
        userId protocol hostname).status = 200
    ∧ ∃ p, (postPersonHandler st body file true publicId newId now
          userId protocol hostname).person = some p
        ∧ p.qrCodeUrl = "" ∧ p.publicId = publicId ∧ p.id = newId
        ∧ p.fullName = body.fullName
        ∧ p ∈ (postPersonHandler st body file true publicId newId now
            userId protocol hostname).state.people := by
  have hnone : (st.people.find? fun p => p.id == newId) = none :=
    List.find?_eq_none.mpr (fun x hx => by simp [hfresh x hx])
  constructor
  · rfl
  · refine ⟨(createPersonStore st.people body (uploadedPhotoUrl file)
        publicId userId newId now).2, ?_, rfl, rfl, rfl, rfl, ?_⟩
    · simp [postPersonHandler, generateQRCode, createPersonStore,
        List.find?_append, hnone]
    · simp [postPersonHandler, generateQRCode, createPersonStore]

/-- C7 witness: a failed QR render on a concrete creation. -/
theorem qr_failure_degraded_creation_witness :
    (∀ p ∈ (State.mk [] [cGroup1] [] []).people, p.id ≠ 7)
    ∧ ((postPersonHandler ⟨[], [cGroup1], [], []⟩
          ⟨"Анна Смирнова", "1992-03-03", "EF789", 30 * msPerDay, "", 1, true⟩
          none true "f00d" 7 4 "admin_user" "https" "vault.example").status = 200
    ∧ ∃ p, (postPersonHandler ⟨[], [cGroup1], [], []⟩
          ⟨"Анна Смирнова", "1992-03-03", "EF789", 30 * msPerDay, "", 1, true⟩
          none true "f00d" 7 4 "admin_user" "https" "vault.example").person = some p
        ∧ p.qrCodeUrl = "" ∧ p.publicId = "f00d" ∧ p.id = 7
        ∧ p.fullName = "Анна Смирнова"
        ∧ p ∈ (postPersonHandler ⟨[], [cGroup1], [], []⟩
            ⟨"Анна Смирнова", "1992-03-03", "EF789", 30 * msPerDay, "", 1, true⟩
            none true "f00d" 7 4 "admin_user" "https" "vault.example").state.people) :=
  ⟨by simp,
   qr_failure_degraded_creation ⟨[], [cGroup1], [], []⟩
     ⟨"Анна Смирнова", "1992-03-03", "EF789", 30 * msPerDay, "", 1, true⟩
     none "f00d" 7 4 "admin_user" "https" "vault.example" (by simp)⟩

lemma find?_id_nodup (users : List User) (u : User)
    (hnodup : (users.map User.id).Nodup) (hu : u ∈ users) :
    (users.find? fun v => v.id == u.id) = some u := by
  induction users with
  | nil => cases hu
  | cons v rest ih =>
      rw [List.map_cons, List.nodup_cons] at hnodup
      by_cases hv : v.id = u.id
      · have hvu : v = u := by
          rcases List.mem_cons.mp hu with h | h
          · exact h.symm
          · exact absurd (hv ▸ List.mem_map_of_mem User.id h) hnodup.1
        rw [List.find?_cons_of_pos _ (by simp [hv])]
        rw [hvu]
      · have hur : u ∈ rest := by
          rcases List.mem_cons.mp hu with h | h
          · exact absurd (h ▸ rfl) hv
          · exact h
        rw [List.find?_cons_of_neg _ (by simp [hv])]
        exact ih hnodup.2 hur

/-- C8: listing the activity log returns every entry, newest first by
timestamp; an entry performed by a stored admin is enriched with exactly
that admin's record, and an entry performed by the sentinel `"system"`
(which matches no user) carries no `performedByUser` instead of
failing. -/
theorem activity_log_listing (logs : List ActivityLog) (users : List User)
    (hnodup : (users.map User.id).Nodup)
    (hsys : ∀ u ∈ users, u.id ≠ "system") :
    ((getAllActivityLogs logs users).map EnrichedLog.log).Perm logs
    ∧ List.Sorted (fun a b => b.log.timestamp ≤ a.log.timestamp)
        (getAllActivityLogs logs users)
    ∧ (∀ e ∈ getAllActivityLogs logs users, ∀ u ∈ users,
        e.log.performedBy = u.id → e.performedByUser = some u)
    ∧ (∀ e ∈ getAllActivityLogs logs users,
        e.log.performedBy = "system" → e.performedByUser = none) := by
  refine ⟨?_, ?_, ?_, ?_⟩
  · rw [getAllActivityLogs, List.map_map]
    have hcomp : (EnrichedLog.log ∘ fun l =>
        (⟨l, users.find? fun u => u.id == l.performedBy⟩ : EnrichedLog))
        = fun l => l := rfl
    rw [hcomp, List.map_id', sortLogsDesc]
    exact List.mergeSort_perm logs _
  · rw [getAllActivityLogs, sortLogsDesc]
    apply List.pairwise_map.mpr
    refine List.Pairwise.imp ?_ (List.sorted_mergeSort ?_ ?_ logs)
    · intro a b h
      exact of_decide_eq_true h
    · intro a b c hab hbc
      simp only [decide_eq_true_eq] at hab hbc ⊢
      exact Nat.le_trans hbc hab
    · intro a b
      rcases Nat.le_total b.timestamp a.timestamp with h | h
      · simp [h]
      · simp [h]
  · intro e he u hu hpb
    rw [getAllActivityLogs] at he
    obtain ⟨l, _, rfl⟩ := List.mem_map.mp he
    have hpb' : l.performedBy = u.id := hpb
    show (users.find? fun v => v.id == l.performedBy) = some u
    rw [hpb']
    exact find?_id_nodup users u hnodup hu
  · intro e he hpb
    rw [getAllActivityLogs] at he
    obtain ⟨l, _, rfl⟩ := List.mem_map.mp he
    have hpb' : l.performedBy = "system" := hpb
    show (users.find? fun v => v.id == l.performedBy) = none
    rw [List.find?_eq_none]
    intro v hv
    simp [hpb', hsys v hv]

/-- A sample admin-performed log entry, older than the scheduler's. -/
def cLog1 : ActivityLog :=
  { action := "Создан паспорт для \"Иван Иванов\"", entityType := "passport",
    entityId := "1", performedBy := "admin_user",
    details := some { fullName := none, expirationDate := none,
                      passportNumber := some "AB123", adminEmail := none },
    timestamp := 3 }

/-- C8 witness: the listing over one admin entry and one system entry. -/
theorem activity_log_listing_witness :
    ((([cUser1].map User.id).Nodup) ∧ ∀ u ∈ [cUser1], u.id ≠ "system")
    ∧ (((getAllActivityLogs [cLog1, expLog 5 cPerson1] [cUser1]).map
          EnrichedLog.log).Perm [cLog1, expLog 5 cPerson1]
    ∧ List.Sorted (fun a b => b.log.timestamp ≤ a.log.timestamp)
        (getAllActivityLogs [cLog1, expLog 5 cPerson1] [cUser1])
    ∧ (∀ e ∈ getAllActivityLogs [cLog1, expLog 5 cPerson1] [cUser1],
        ∀ u ∈ [cUser1], e.log.performedBy = u.id → e.performedByUser = some u)
    ∧ (∀ e ∈ getAllActivityLogs [cLog1, expLog 5 cPerson1] [cUser1],
        e.log.performedBy = "system" → e.performedByUser = none)) :=
  ⟨⟨by decide, by decide⟩,
   activity_log_listing [cLog1, expLog 5 cPerson1] [cUser1]
     (by decide) (by decide)⟩

end PassportVault
